import Mathlib

/-
Verification of the WebSocket frame codec and handshake negotiator
(src/main.rs, src/websocket.rs) against its specification.

The Rust code is shallowly embedded: bytes are `Nat` values below 256,
byte buffers are `List Nat`, `u8`/`u32` arithmetic is `Nat` arithmetic
with explicit `% 256` / `% 2^32`, fallible parsers return `Except`,
and the panicking unmasking loop returns `Option` (`none` = panic).
-/

namespace Ws

/-- Decidable equality for `Except`, needed to settle concrete parser
results by `decide`. -/
instance {ε α : Type} [DecidableEq ε] [DecidableEq α] : DecidableEq (Except ε α) :=
  fun x y =>
    match x, y with
    | .ok a, .ok b =>
      if h : a = b then isTrue (by rw [h])
      else isFalse (by intro he; cases he; exact h rfl)
    | .error a, .error b =>
      if h : a = b then isTrue (by rw [h])
      else isFalse (by intro he; cases he; exact h rfl)
    | .ok _, .error _ => isFalse (by intro he; cases he)
    | .error _, .ok _ => isFalse (by intro he; cases he)

/-- The three `nom::Err` constructors, as matched by the
`From<nom::Err<ParseError<I>>> for Error` impl (websocket.rs:68-76).
All parsers the codec uses are `complete` parsers, which signal
insufficient input as `Err::Error`, never `Err::Incomplete`. -/
inductive NomErrKind
  | err
  | incomplete
  | failure
  deriving DecidableEq, Repr

/-- `InvalidUpgrade` (main.rs:42-50).  `InvalidVersionString` wraps the
`std::num::ParseIntError` produced by `str::parse::<i32>`; we model that
error by its kind (`Empty`, `InvalidDigit`, `PosOverflow`, `NegOverflow`). -/
inductive ParseIntError
  | Empty
  | InvalidDigit
  | PosOverflow
  | NegOverflow
  deriving DecidableEq, Repr

inductive InvalidUpgrade
  | InvalidVersionString (e : ParseIntError)
  | InvalidVersion
  | HeaderNotFound (name : String)
  deriving DecidableEq, Repr

/-- `Error` (main.rs:24-40).  The variants wrapping foreign I/O and hyper
errors are irrelevant to the codec and negotiator and are not modelled. -/
inductive Error
  | Any
  | Internal
  | ParseError (msg : String)
  | UpgradeError (e : InvalidUpgrade)
  deriving DecidableEq, Repr

/-- `impl From<nom::Err<ParseError<I>>> for Error` (websocket.rs:68-76):
every nom error variant is collapsed into the single `Error::ParseError`
variant, distinguished only by the message string. -/
def nomErrToError : NomErrKind → Error
  | .err => .ParseError "nom parser errors go here."
  | .incomplete => .ParseError "Not enough data."
  | .failure => .ParseError "Critical parser error."

/-- `struct Frame` (websocket.rs:44-52).  Note that `length` is a `u8`
in the source; the embedding keeps it a `Nat` but every value the code
can store in it is below 256. -/
structure Frame where
  fin : Nat
  rsv : Nat
  mask : Nat
  opcode : Nat
  length : Nat
  masking_key : Nat
  deriving DecidableEq, Repr

/-- `Frame::parse_pre_payload` (websocket.rs:83-91):
`bits(tuple((take_bits(1), take_bits(3), take_bits(4), take_bits(1),
take_bits(7))))`, i.e. the fields `(fin, rsv, opcode, mask, payload_hint)`
extracted in bit order from the first two bytes.  Fewer than two bytes
makes the (complete) bit parser fail with `nom::Err::Error`. -/
def parse_pre_payload (input : List Nat) :
    Except NomErrKind (List Nat × (Nat × Nat × Nat × Nat × Nat)) :=
  match input with
  | b0 :: b1 :: rest =>
      .ok (rest, ((b0 >>> 7) % 2, (b0 >>> 4) % 8, b0 % 16, (b1 >>> 7) % 2, b1 % 128))
  | _ => .error .err

/-- The accumulator loop of `nom::bits::complete::take` specialised to
output type `u8` at bit offset 0, with Rust release-mode semantics:
`acc = (acc << 8) + val` on a `u8` masks the shift amount (`<< 8` becomes
`<< 0`) and wraps the addition, so each whole input byte is added mod 256;
the final partial byte contributes its top `remaining` bits.
(A debug build instead panics on the overflowing shift as soon as more
than 8 bits are requested.) -/
def take_bits_acc : Nat → List Nat → Nat → Nat
  | _, [], acc => acc
  | remaining, b :: bs, acc =>
    if remaining = 0 then acc
    else if remaining < 8 then (acc + (b >>> (8 - remaining))) % 256
    else take_bits_acc (remaining - 8) bs ((acc + b) % 256)

/-- `nom::bits::complete::take::<_, u8, _, _>(count)` at bit offset 0
(used for the payload-length extension in `Frame::from_bytes`):
errors (with `nom::Err::Error`) when fewer than `count` bits are
available, otherwise returns the input after `count / 8` whole bytes,
the end bit offset `count % 8`, and the accumulated (u8-wrapped) value. -/
def take_bits_u8 (count : Nat) (input : List Nat) :
    Except NomErrKind (List Nat × Nat × Nat) :=
  if count = 0 then .ok (input, 0, 0)
  else if input.length * 8 < count then .error .err
  else .ok (input.drop (count / 8), count % 8, take_bits_acc count input 0)

/-- `bits(cond(payload_word_len >= 16, take_bits(payload_word_len)))`
(websocket.rs:102, 106): the extension take runs only when
`payload_word_len >= 16`; the `bits` wrapper then discards any partially
consumed byte (`offset / 8 + if offset % 8 == 0 { 0 } else { 1 }`). -/
def parse_len_ext (payload_word_len : Nat) (input : List Nat) :
    Except NomErrKind (List Nat × Option Nat) :=
  if 16 ≤ payload_word_len then
    match take_bits_u8 payload_word_len input with
    | .error e => .error e
    | .ok (rest, endOff, acc) =>
        .ok (rest.drop (endOff / 8 + if endOff % 8 = 0 then 0 else 1), some acc)
  else .ok (input, none)

/-- `Frame::parse_masking_key` (websocket.rs:79-81): `be_u32`, a complete
parser needing four bytes, big-endian. -/
def parse_masking_key (input : List Nat) : Except NomErrKind (List Nat × Nat) :=
  match input with
  | b0 :: b1 :: b2 :: b3 :: rest =>
      .ok (rest, ((b0 % 256) <<< 24) + ((b1 % 256) <<< 16) + ((b2 % 256) <<< 8) + (b3 % 256))
  | _ => .error .err

/-- `Frame::from_bytes` (websocket.rs:93-120).  Mirrors the source
exactly: pre-payload bit fields, `payload_word_len` from the 126/127
match, the conditional extension take, the unconditional masking key,
and the result `(payload, frame)` where `payload` is everything left
after the masking key and `length := payload_len.unwrap_or(payload_word_len)`. -/
def from_bytes (input : List Nat) : Except Error (List Nat × Frame) :=
  match parse_pre_payload input with
  | .error e => .error (nomErrToError e)
  | .ok (rest, (fin, rsv, opcode, mask, payload_hint)) =>
    let payload_word_len :=
      if payload_hint = 126 then 16
      else if payload_hint = 127 then 64
      else payload_hint
    match parse_len_ext payload_word_len rest with
    | .error e => .error (nomErrToError e)
    | .ok (rest2, payload_len) =>
      match parse_masking_key rest2 with
      | .error e => .error (nomErrToError e)
      | .ok (payload, masking_key) =>
        .ok (payload,
          { fin := fin, rsv := rsv, mask := mask, opcode := opcode,
            length := payload_len.getD payload_word_len, masking_key := masking_key })

/-- `u32::to_be_bytes` (used at main.rs:67 for the masking key). -/
def u32_to_be_bytes (n : Nat) : List Nat :=
  [(n >>> 24) % 256, (n >>> 16) % 256, (n >>> 8) % 256, n % 256]

/-- The body of the `for i in 0..len` loop of `decode` (main.rs:54-58),
with the remaining iteration count as fuel (`fuel = len - i`).  The state
is the pair `(target, source)`; `target[i] = source[i] ^ mask[i % 4]`
indexes both slices, so `none` models the out-of-bounds panic when
`i` reaches the length of either slice before `len`. -/
def decodeLoop (mask : List Nat) : Nat → Nat → List Nat × List Nat →
    Option (List Nat × List Nat)
  | _, 0, st => some st
  | i, fuel + 1, (target, source) =>
    if i < target.length ∧ i < source.length then
      decodeLoop mask (i + 1) fuel
        (target.set i ((source.getD i 0) ^^^ (mask.getD (i % 4) 0)), source)
    else none

/-- `decode` (main.rs:54-58): XOR-unmask the first `len` bytes of
`source` into `target` with the repeating 4-byte mask. -/
def decode (target source : List Nat) (mask : List Nat) (len : Nat) :
    Option (List Nat × List Nat) :=
  decodeLoop mask 0 len (target, source)

/-- The frame-processing part of `handle_upgraded` (main.rs:60-74) on an
already-read buffer: `Frame::from_bytes`, then `decode` into a fresh
zeroed vector of `frame.length` bytes using the big-endian key bytes.
`none` models a panic inside `decode`; `some (.error e)` the early
return of a decoding error; `some (.ok msg)` the decoded message. -/
def handle_upgraded (buffer : List Nat) : Option (Except Error (List Nat)) :=
  match from_bytes buffer with
  | .error e => some (.error e)
  | .ok (rest, frame) =>
    match decode (List.replicate frame.length 0) rest
        (u32_to_be_bytes frame.masking_key) frame.length with
    | none => none
    | some (message, _) => some (.ok message)

/-- ASCII bytes of a string (`str::as_bytes` for the ASCII strings used
by the handshake). -/
def ascii (s : String) : List Nat := s.toList.map Char.toNat

/-- `WS_GUID` (main.rs:52). -/
def WS_GUID : String := "258EAFA5-E914-47DA-95CA-C5AB0DC85B11"

/-- `concat` (main.rs:140-142). -/
def concat (a b : List Nat) : List Nat := a ++ b

/- ---------- SHA-1 (the `crypto::sha1::Sha1` digest used by
`generate_accept_key`), modelled from its standard definition ---------- -/

def u32mod : Nat := 4294967296

/-- 32-bit left rotation. -/
def rotl (n x : Nat) : Nat := ((x <<< n) ||| (x >>> (32 - n))) % u32mod

def be32 (w : Nat) : List Nat :=
  [(w >>> 24) % 256, (w >>> 16) % 256, (w >>> 8) % 256, w % 256]

def be64 (w : Nat) : List Nat :=
  [(w >>> 56) % 256, (w >>> 48) % 256, (w >>> 40) % 256, (w >>> 32) % 256,
   (w >>> 24) % 256, (w >>> 16) % 256, (w >>> 8) % 256, w % 256]

/-- SHA-1 padding: a 0x80 byte, zeros to 56 mod 64, then the bit length
as a big-endian 64-bit integer. -/
def sha1_pad (msg : List Nat) : List Nat :=
  let zeros := (64 + 56 - (msg.length + 1) % 64) % 64
  msg ++ (128 :: List.replicate zeros 0) ++ be64 (msg.length * 8)

/-- Big-endian 32-bit words of a byte list. -/
def toWords : List Nat → List Nat
  | a :: b :: c :: d :: rest => (((a * 256 + b) * 256 + c) * 256 + d) :: toWords rest
  | _ => []

/-- Split a word list into 16-word blocks (fuelled for structural
recursion). -/
def groupWordsAux : Nat → List Nat → List (List Nat)
  | 0, _ => []
  | _ + 1, [] => []
  | fuel + 1, ws => ws.take 16 :: groupWordsAux fuel (ws.drop 16)

/-- One message-schedule extension step on the reversed word list:
`w[t] = rotl1 (w[t-3] ^ w[t-8] ^ w[t-14] ^ w[t-16])`. -/
def sha1_extend_step (rws : List Nat) : List Nat :=
  rotl 1 ((rws.getD 2 0) ^^^ (rws.getD 7 0) ^^^ (rws.getD 13 0) ^^^ (rws.getD 15 0)) :: rws

def sha1_extend : Nat → List Nat → List Nat
  | 0, rws => rws
  | n + 1, rws => sha1_extend n (sha1_extend_step rws)

/-- The 80-word message schedule of one 16-word block. -/
def sha1_schedule (block : List Nat) : List Nat :=
  (sha1_extend 64 block.reverse).reverse

def sha1_f (t b c d : Nat) : Nat :=
  if t < 20 then (b &&& c) ||| ((b ^^^ 4294967295) &&& d)
  else if t < 40 then b ^^^ c ^^^ d
  else if t < 60 then (b &&& c) ||| (b &&& d) ||| (c &&& d)
  else b ^^^ c ^^^ d

def sha1_k (t : Nat) : Nat :=
  if t < 20 then 1518500249
  else if t < 40 then 1859775393
  else if t < 60 then 2400959708
  else 3395469782

def sha1_rounds : List Nat → Nat → Nat × Nat × Nat × Nat × Nat →
    Nat × Nat × Nat × Nat × Nat
  | [], _, st => st
  | w :: ws, t, (a, b, c, d, e) =>
    let temp := (rotl 5 a + sha1_f t b c d + e + sha1_k t + w) % u32mod
    sha1_rounds ws (t + 1) (temp, a, rotl 30 b, c, d)

def sha1_compress (h : Nat × Nat × Nat × Nat × Nat) (block : List Nat) :
    Nat × Nat × Nat × Nat × Nat :=
  let (h0, h1, h2, h3, h4) := h
  let (a, b, c, d, e) := sha1_rounds (sha1_schedule block) 0 (h0, h1, h2, h3, h4)
  ((h0 + a) % u32mod, (h1 + b) % u32mod, (h2 + c) % u32mod,
   (h3 + d) % u32mod, (h4 + e) % u32mod)

/-- SHA-1 of a byte list, as the 20 digest bytes. -/
def sha1 (msg : List Nat) : List Nat :=
  let words := toWords (sha1_pad msg)
  let blocks := groupWordsAux words.length words
  let (h0, h1, h2, h3, h4) :=
    blocks.foldl sha1_compress (1732584193, 4023233417, 2562383102, 271733878, 3285377520)
  be32 h0 ++ be32 h1 ++ be32 h2 ++ be32 h3 ++ be32 h4

/- ---------- base64 (the `base64::encode` used by `generate_accept_key`),
modelled from its standard definition (standard alphabet, `=` padding) ---------- -/

def base64_table : List Char :=
  "ABCDEFGHIJKLMNOPQRSTUVWXYZabcdefghijklmnopqrstuvwxyz0123456789+/".toList

def b64c (n : Nat) : Char := base64_table.getD n 'A'

def base64_groups : List Nat → List Char
  | a :: b :: c :: rest =>
    let w := (a % 256) * 65536 + (b % 256) * 256 + (c % 256)
    b64c (w >>> 18) :: b64c ((w >>> 12) % 64) :: b64c ((w >>> 6) % 64) ::
      b64c (w % 64) :: base64_groups rest
  | [a, b] =>
    let w := (a % 256) * 65536 + (b % 256) * 256
    [b64c (w >>> 18), b64c ((w >>> 12) % 64), b64c ((w >>> 6) % 64), '=']
  | [a] =>
    let w := (a % 256) * 65536
    [b64c (w >>> 18), b64c ((w >>> 12) % 64), '=', '=']
  | [] => []

/-- `base64::encode`. -/
def encode (bytes : List Nat) : String := String.mk (base64_groups bytes)

/-- `generate_accept_key` (main.rs:144-152): base64 of the SHA-1 digest
of the key concatenated with the GUID. -/
def generate_accept_key (websocket_key : List Nat) : String :=
  encode (sha1 (concat websocket_key (ascii WS_GUID)))

/- ---------- the version check of `upgrade` (main.rs:101-113) ---------- -/

def digitVal (c : Char) : Option Nat :=
  if '0' ≤ c ∧ c ≤ '9' then some (c.toNat - 48) else none

/-- Digit loop of `i32::from_str` (radix 10) with `checked_mul` /
`checked_add` / `checked_sub` bounds checks against the i32 range. -/
def parse_i32_digits (positive : Bool) : List Char → Int → Except ParseIntError Int
  | [], acc => .ok acc
  | c :: cs, acc =>
    match digitVal c with
    | none => .error .InvalidDigit
    | some d =>
      let acc2 : Int := if positive then acc * 10 + d else acc * 10 - d
      if positive ∧ 2147483647 < acc2 then .error .PosOverflow
      else if ¬positive ∧ acc2 < -2147483648 then .error .NegOverflow
      else parse_i32_digits positive cs acc2

/-- `str::parse::<i32>` (`i32::from_str`): empty input is `Empty`, an
optional leading sign, then at least one decimal digit. -/
def parse_i32 (s : String) : Except ParseIntError Int :=
  match s.toList with
  | [] => .error .Empty
  | c :: cs =>
    if c = '+' then
      (if cs.isEmpty then .error .InvalidDigit else parse_i32_digits true cs 0)
    else if c = '-' then
      (if cs.isEmpty then .error .InvalidDigit else parse_i32_digits false cs 0)
    else parse_i32_digits true (c :: cs) 0

/-- The handshake-validation core of `upgrade` (main.rs:101-113), given
the two header values (both present): parse the version string as an
`i32` (a parse failure becomes `InvalidUpgrade::InvalidVersionString`,
lifted into `Error::UpgradeError` by `??`), reject values other than 13
with `InvalidUpgrade::InvalidVersion`, otherwise produce the accept key. -/
def upgrade (websocket_key : List Nat) (websocket_version : String) :
    Except Error String :=
  match parse_i32 websocket_version with
  | .error e => .error (.UpgradeError (.InvalidVersionString e))
  | .ok ver =>
    if ver ≠ 13 then .error (.UpgradeError .InvalidVersion)
    else .ok (generate_accept_key websocket_key)

end Ws

namespace Ws

/- ---------- helper lemmas ---------- -/

theorem getD_set_self (v : Nat) :
    ∀ (l : List Nat) (i : Nat), i < l.length → (l.set i v).getD i 0 = v := by
  intro l
  induction l with
  | nil => intro i h; simp at h
  | cons a t ih =>
    intro i h
    cases i with
    | zero => rfl
    | succ n => simpa using ih n (by simpa using h)

theorem getD_set_ne (v : Nat) :
    ∀ (l : List Nat) (i j : Nat), i ≠ j → (l.set i v).getD j 0 = l.getD j 0 := by
  intro l
  induction l with
  | nil => intro i j _; simp
  | cons a t ih =>
    intro i j h
    cases i with
    | zero =>
      cases j with
      | zero => exact absurd rfl h
      | succ m => rfl
    | succ n =>
      cases j with
      | zero => rfl
      | succ m => simpa using ih n m (fun e => h (by rw [e]))

theorem list_eq_of_getD :
    ∀ (l1 l2 : List Nat), l1.length = l2.length →
      (∀ j, j < l1.length → l1.getD j 0 = l2.getD j 0) → l1 = l2 := by
  intro l1
  induction l1 with
  | nil =>
    intro l2 h _
    cases l2 with
    | nil => rfl
    | cons b u => simp at h
  | cons a t ih =>
    intro l2 h hj
    cases l2 with
    | nil => simp at h
    | cons b u =>
      have h0 : a = b := hj 0 (by simp)
      have ht : t = u :=
        ih u (by simpa using h) (fun j hjl => by simpa using hj (j + 1) (by simpa using hjl))
      rw [h0, ht]

/-- Full characterisation of the `decode` loop: with enough bytes in both
slices it terminates without panicking, leaves `source` untouched,
preserves the length of `target`, XORs the bytes of the iteration range
`[i, i+n)` and leaves every other byte of `target` unchanged. -/
theorem decodeLoop_spec (mask : List Nat) :
    ∀ (n i : Nat) (target source : List Nat),
      i + n ≤ target.length → i + n ≤ source.length →
      ∃ t, decodeLoop mask i n (target, source) = some (t, source) ∧
        t.length = target.length ∧
        (∀ j, j < i ∨ i + n ≤ j → t.getD j 0 = target.getD j 0) ∧
        (∀ j, i ≤ j → j < i + n →
          t.getD j 0 = (source.getD j 0) ^^^ (mask.getD (j % 4) 0)) := by
  intro n
  induction n with
  | zero =>
    intro i target source _ _
    exact ⟨target, rfl, rfl, fun j _ => rfl, fun j hj1 hj2 => absurd hj2 (by omega)⟩
  | succ n ih =>
    intro i target source h1 h2
    have hit : i < target.length := by omega
    have his : i < source.length := by omega
    obtain ⟨t, heq, hlen, hout, hin⟩ :=
      ih (i + 1) (target.set i ((source.getD i 0) ^^^ (mask.getD (i % 4) 0))) source
        (by simp; omega) (by omega)
    refine ⟨t, ?_, by simpa using hlen, ?_, ?_⟩
    · simp only [decodeLoop]
      rw [if_pos ⟨hit, his⟩]
      exact heq
    · intro j hj
      have hji : i ≠ j := by omega
      have := hout j (by omega)
      rw [this, getD_set_ne _ _ _ _ hji]
    · intro j hj1 hj2
      rcases Nat.eq_or_lt_of_le hj1 with hEq | hlt
      · rw [← hEq]
        have := hout i (Or.inl (by omega))
        rw [this, getD_set_self _ _ _ hit]
      · exact hin j (by omega) (by omega)

end Ws

namespace Ws

/- ---------- claim theorems ---------- -/

/-- Claim C1 (code_bug evidence): the claim says a length hint in 0-125
resolves to the hint itself with zero extension bytes consumed, but for
hints 16-125 the guard `payload_word_len >= 16` also fires: on the frame
`81 94 00 00 50 AA BB CC DD` (hint 20) the code consumes three
"extension" bytes `00 00 50`, resolves the length to 5 (the u8-wrapped
20-bit take), and reads the masking key from the wrong offset. -/
theorem c1_extension_misparse :
    from_bytes [0x81, 0x94, 0x00, 0x00, 0x50, 0xAA, 0xBB, 0xCC, 0xDD] =
      .ok ([], { fin := 1, rsv := 0, mask := 1, opcode := 1,
                 length := 5, masking_key := 0xAABBCCDD }) ∧
    (0x94 : Nat) % 128 = 20 ∧ (5 : Nat) ≠ 20 := by decide

/-- Claim C3 (code_bug evidence): the claim says hint 126 resolves the
length to the next two bytes as a full big-endian 16-bit value, but
`Frame.length` is a `u8` and the extension bytes are accumulated with
wrapped u8 arithmetic: on `81 FE 01 00 ...` (declared length 0x0100 =
256) the code resolves the length to 1. -/
theorem c3_length_truncated :
    from_bytes [0x81, 0xFE, 0x01, 0x00, 0x00, 0x00, 0x00, 0x00] =
      .ok ([], { fin := 1, rsv := 0, mask := 1, opcode := 1,
                 length := 1, masking_key := 0 }) ∧
    (0x01 : Nat) * 256 + 0x00 = 256 ∧ (1 : Nat) ≠ 256 := by decide

/-- Claim C4 (counterexample): decoding the 1-byte buffer `81` fails via
the `nom::Err::Error` conversion arm — the parse-error (malformed)
branch — whose value differs from the `nom::Err::Incomplete` arm's
value, so a short buffer does NOT yield the Incomplete condition. -/
theorem c4_short_input_not_incomplete :
    from_bytes [0x81] = .error (nomErrToError .err) ∧
    nomErrToError .err ≠ nomErrToError .incomplete := by decide

/-- Claim C4 (amended): every buffer shorter than the 2-byte header makes
`Frame::from_bytes` fail with `Error::ParseError "nom parser errors go
here."`, the conversion of `nom::Err::Error` (the complete parsers signal
EOF as `Err::Error`); all nom error variants collapse into the single
`Error::ParseError` variant, so the caller cannot distinguish incomplete
input from a malformed frame. -/
theorem c4_short_input_parse_error (input : List Nat) (h : input.length < 2) :
    from_bytes input = .error (.ParseError "nom parser errors go here.") := by
  cases input with
  | nil => rfl
  | cons a t =>
    cases t with
    | nil => rfl
    | cons b r =>
      exfalso
      simp only [List.length_cons] at h
      omega

/-- Witness for `c4_short_input_parse_error` at the 1-byte buffer `81`. -/
theorem c4_short_input_parse_error_witness :
    ([0x81] : List Nat).length < 2 ∧
    from_bytes [0x81] = .error (.ParseError "nom parser errors go here.") :=
  ⟨by decide, c4_short_input_parse_error [0x81] (by decide)⟩

/-- Claim C5 (code_bug evidence): on the frame `81 85 37 fa 21 3d`
(declared payload length 5, zero payload bytes present) the header parse
succeeds, and `handle_upgraded` then calls `decode`, which indexes
`source[i]` past the end of the remaining bytes: the connection task
panics (modelled by `none`) instead of reporting an Incomplete
condition. -/
theorem c5_short_payload_crash :
    from_bytes [0x81, 0x85, 0x37, 0xfa, 0x21, 0x3d] =
      .ok ([], { fin := 1, rsv := 0, mask := 1, opcode := 1,
                 length := 5, masking_key := 0x37fa213d }) ∧
    handle_upgraded [0x81, 0x85, 0x37, 0xfa, 0x21, 0x3d] = none := by decide

/-- Claim C8: decoding the masked text frame `81 85 37 fa 21 3d 7f 9f 4d
51 58` yields fin=1, opcode=1 (text), mask=1, resolved length 5, masking
key 0x37fa213d, and the unmasked payload "Hello". -/
theorem c8_hello_frame :
    from_bytes [0x81, 0x85, 0x37, 0xfa, 0x21, 0x3d, 0x7f, 0x9f, 0x4d, 0x51, 0x58] =
      .ok ([0x7f, 0x9f, 0x4d, 0x51, 0x58],
        { fin := 1, rsv := 0, mask := 1, opcode := 1,
          length := 5, masking_key := 0x37fa213d }) ∧
    handle_upgraded [0x81, 0x85, 0x37, 0xfa, 0x21, 0x3d, 0x7f, 0x9f, 0x4d, 0x51, 0x58] =
      some (.ok (ascii "Hello")) := by decide

/-- Claim C9 (counterexample): on the complete 1-byte-payload frame
`81 81 00 00 00 00 41` followed by the trailing byte `42`,
`Frame::from_bytes` returns the remainder `[41, 42]` — the payload byte
is included — not the after-payload remainder `[42]` the claim requires,
and the returned `Frame` carries no payload at all. -/
theorem c9_remainder_includes_payload :
    from_bytes [0x81, 0x81, 0x00, 0x00, 0x00, 0x00, 0x41, 0x42] =
      .ok ([0x41, 0x42], { fin := 1, rsv := 0, mask := 1, opcode := 1,
                           length := 1, masking_key := 0 }) ∧
    ([0x41, 0x42] : List Nat) ≠ [0x42] := by decide

/-- Claim C9 (amended): for every frame whose length hint stays below the
extension guard (hint < 16), a successful `Frame::from_bytes` returns,
alongside the `Frame` (which has no payload field, only the resolved
length), exactly the bytes of the input that remain after the 4-byte
masking key — i.e. the masked payload itself followed by any trailing
bytes. -/
theorem c9_rest_after_key (b0 b1 k1 k2 k3 k4 : Nat) (tail : List Nat)
    (h : b1 % 128 < 16) :
    from_bytes (b0 :: b1 :: k1 :: k2 :: k3 :: k4 :: tail) =
      .ok (tail,
        { fin := (b0 >>> 7) % 2, rsv := (b0 >>> 4) % 8, mask := (b1 >>> 7) % 2,
          opcode := b0 % 16, length := b1 % 128,
          masking_key := ((k1 % 256) <<< 24) + ((k2 % 256) <<< 16) +
            ((k3 % 256) <<< 8) + (k4 % 256) }) := by
  have h126 : ¬(b1 % 128 = 126) := by omega
  have h127 : ¬(b1 % 128 = 127) := by omega
  have h16 : ¬(16 ≤ b1 % 128) := by omega
  simp [from_bytes, parse_pre_payload, parse_len_ext, parse_masking_key, h126, h127, h16]

/-- Witness for `c9_rest_after_key` at the "Hello" frame. -/
theorem c9_rest_after_key_witness :
    (0x85 : Nat) % 128 < 16 ∧
    from_bytes (0x81 :: 0x85 :: 0x37 :: 0xfa :: 0x21 :: 0x3d ::
        [0x7f, 0x9f, 0x4d, 0x51, 0x58]) =
      .ok ([0x7f, 0x9f, 0x4d, 0x51, 0x58],
        { fin := (0x81 >>> 7) % 2, rsv := (0x81 >>> 4) % 8, mask := (0x85 >>> 7) % 2,
          opcode := 0x81 % 16, length := 0x85 % 128,
          masking_key := ((0x37 % 256) <<< 24) + ((0xfa % 256) <<< 16) +
            ((0x21 % 256) <<< 8) + (0x3d % 256) }) :=
  ⟨by decide,
    c9_rest_after_key 0x81 0x85 0x37 0xfa 0x21 0x3d
      [0x7f, 0x9f, 0x4d, 0x51, 0x58] (by decide)⟩

end Ws

namespace Ws

set_option maxRecDepth 100000 in
/-- Claim C2: for every key byte sequence, `generate_accept_key` returns
the base64 encoding of the SHA-1 digest of the key concatenated with the
protocol GUID (no separator), and on the RFC 6455 sample key
`dGhlIHNhbXBsZSBub25jZQ==` it returns the known accept token. -/
theorem c2_accept_key :
    (∀ k : List Nat, generate_accept_key k = encode (sha1 (k ++ ascii WS_GUID))) ∧
    generate_accept_key (ascii "dGhlIHNhbXBsZSBub25jZQ==") =
      "s3pPLMBiTxaQ9kYGzzhZRbK+xOo=" :=
  ⟨fun _ => rfl, by decide⟩

/-- Claim C6 (counterexample): a version string that fails to parse as an
integer (here "abc") makes `upgrade` fail with
`InvalidUpgrade::InvalidVersionString` (wrapping the parse error), which
is a different error from the `InvalidVersion` the claim names. -/
theorem c6_parse_failure_wrong_variant :
    upgrade [] "abc" = .error (.UpgradeError (.InvalidVersionString .InvalidDigit)) ∧
    Error.UpgradeError (.InvalidVersionString .InvalidDigit) ≠
      Error.UpgradeError .InvalidVersion := by decide

/-- Claim C6 (amended): the handshake validation succeeds exactly when
the version string parses as the i32 value 13, and no accept token is
produced otherwise; but the failure error depends on the cause — a parse
failure yields `InvalidVersionString` (e.g. "" gives the Empty parse
error and "abc" the InvalidDigit one), while a successfully parsed value
other than 13 (e.g. "12") yields `InvalidVersion`. -/
theorem c6_version_validation (k : List Nat) (v : String) :
    ((∃ t, upgrade k v = .ok t) ↔ parse_i32 v = .ok 13) ∧
    upgrade k "12" = .error (.UpgradeError .InvalidVersion) ∧
    upgrade k "" = .error (.UpgradeError (.InvalidVersionString .Empty)) ∧
    upgrade k "abc" = .error (.UpgradeError (.InvalidVersionString .InvalidDigit)) := by
  refine ⟨?_, ?_, ?_, ?_⟩
  · constructor
    · rintro ⟨t, ht⟩
      cases hp : parse_i32 v with
      | error e => simp [upgrade, hp] at ht
      | ok n =>
        by_cases hn : n = 13
        · rw [hn]
        · simp [upgrade, hp, hn] at ht
    · intro hp
      exact ⟨generate_accept_key k, by simp [upgrade, hp]⟩
  · have h12 : parse_i32 "12" = .ok 12 := by decide
    simp [upgrade, h12]
  · have hEmpty : parse_i32 "" = .error .Empty := by decide
    simp [upgrade, hEmpty]
  · have hAbc : parse_i32 "abc" = .error .InvalidDigit := by decide
    simp [upgrade, hAbc]

/-- Claim C7: masking then unmasking with the same 32-bit key is the
identity — running `decode` (the byte-wise XOR with key byte i mod 4 in
big-endian key order, exactly as `handle_upgraded` invokes it on a fresh
zeroed buffer) twice over a payload returns the original payload. -/
theorem c7_mask_roundtrip (p : List Nat) (key : Nat) :
    ∃ masked,
      decode (List.replicate p.length 0) p (u32_to_be_bytes key) p.length =
        some (masked, p) ∧
      decode (List.replicate p.length 0) masked (u32_to_be_bytes key) p.length =
        some (p, masked) := by
  obtain ⟨m, hm, hmlen, _, hmin⟩ :=
    decodeLoop_spec (u32_to_be_bytes key) p.length 0
      (List.replicate p.length 0) p (by simp) (by simp)
  have hmlen2 : m.length = p.length := by simpa using hmlen
  obtain ⟨t, ht, htlen, _, htin⟩ :=
    decodeLoop_spec (u32_to_be_bytes key) p.length 0
      (List.replicate p.length 0) m (by simp) (by omega)
  have htlen2 : t.length = p.length := by simpa using htlen
  have htp : t = p := by
    apply list_eq_of_getD t p htlen2
    intro j hj
    have hjp : j < p.length := by omega
    rw [htin j (Nat.zero_le j) (by omega), hmin j (Nat.zero_le j) (by omega),
      Nat.xor_assoc, Nat.xor_self, Nat.xor_zero]
  refine ⟨m, ?_, ?_⟩
  · simpa only [decode] using hm
  · rw [htp] at ht
    simpa only [decode] using ht

/-- Claim C10: with `len` within both buffers (and a 4-byte mask, as in
the caller), `decode` terminates without panicking, `target` keeps its
length with exactly the first `len` bytes rewritten to
`source[i] XOR mask[i mod 4]` and every byte from index `len` on
unchanged, and `source` is returned unchanged. -/
theorem c10_decode_frame_effect (target source mask : List Nat) (len : Nat)
    (h1 : len ≤ target.length) (h2 : len ≤ source.length)
    (_h3 : mask.length = 4) :
    ∃ t, decode target source mask len = some (t, source) ∧
      t.length = target.length ∧
      (∀ j, j < len → t.getD j 0 = (source.getD j 0) ^^^ (mask.getD (j % 4) 0)) ∧
      (∀ j, len ≤ j → t.getD j 0 = target.getD j 0) := by
  obtain ⟨t, heq, hlen, hout, hin⟩ :=
    decodeLoop_spec mask len 0 target source (by omega) (by omega)
  exact ⟨t, heq, hlen, fun j hj => hin j (Nat.zero_le j) (by omega),
    fun j hj => hout j (Or.inr (by omega))⟩

/-- Witness for `c10_decode_frame_effect` on concrete buffers. -/
theorem c10_decode_frame_effect_witness :
    (2 ≤ ([9, 9, 9] : List Nat).length ∧ 2 ≤ ([1, 2, 3] : List Nat).length ∧
      ([5, 6, 7, 8] : List Nat).length = 4) ∧
    ∃ t, decode [9, 9, 9] [1, 2, 3] [5, 6, 7, 8] 2 = some (t, [1, 2, 3]) ∧
      t.length = ([9, 9, 9] : List Nat).length ∧
      (∀ j, j < 2 → t.getD j 0 =
        (([1, 2, 3] : List Nat).getD j 0) ^^^ (([5, 6, 7, 8] : List Nat).getD (j % 4) 0)) ∧
      (∀ j, 2 ≤ j → t.getD j 0 = ([9, 9, 9] : List Nat).getD j 0) :=
  ⟨⟨by decide, by decide, by decide⟩,
    c10_decode_frame_effect [9, 9, 9] [1, 2, 3] [5, 6, 7, 8] 2
      (by decide) (by decide) (by decide)⟩

end Ws
